import Mathlib

/-!
The module `src/crypto.js` of libsignal-node: a shallow embedding.

The module wraps the platform's crypto provider (`require('crypto')`): AES-256-CBC,
HMAC-SHA256, SHA-512 and a constant-time comparator.  The provider is not part of the
repository, so its primitives are parameters of the embedding (`Provider`); the six
exported operations and `assertBuffer` are translated statement by statement.

Every operation returns an `Outcome`: the value or the thrown error, together with the
ordered log of provider calls that were made.  The log is what lets statements such as
"fails before any cryptographic computation" be written down.
-/

namespace Crypto

/-! ## Data model -/

/-- One element of a `Buffer` (a `Uint8Array`): an integer in `0 .. 255`. -/
abbrev Byte := Fin 256

/-- The contents of a `Buffer`. -/
abbrev Bytes := List Byte

/-- A JavaScript value, as far as `crypto.js` can tell values apart: a `Buffer`,
`null`, `undefined`, a number, any other value that has a constructor, which is
represented by the name of that constructor (`"Uint8Array"`, `"Array"`, `"String"`,
`"Object"`, ...), and an object that has no constructor, as `Object.create(null)`
makes one: its property `constructor` is `undefined`. -/
inductive Value where
  | buffer (bytes : Bytes)
  | null
  | undefined
  | number (n : Int)
  | object (constructorName : String)
  | bare
  deriving DecidableEq, Repr

/-- What a `throw` of `crypto.js`, of `assert` or of the platform carries. -/
inductive Error where
  /-- Thrown by `throw TypeError(message)`. -/
  | typeError (message : String)
  /-- Thrown by `throw new Error(message)`. -/
  | error (message : String)
  /-- A failed `assert(...)`: `AssertionError`. -/
  | assertionError
  /-- A `RangeError` of the platform (`TypedArray.prototype.set`, `timingSafeEqual`). -/
  | rangeError (message : String)
  /-- A failure of the cipher provider (bad key or IV length, bad padding). -/
  | provider (message : String)
  deriving DecidableEq, Repr

/-- A call into the crypto provider. -/
inductive Event where
  | cipher (key data iv : Bytes)
  | decipher (key data iv : Bytes)
  | hmac (key data : Bytes)
  | sha512 (data : Bytes)
  | timingSafeEqual (a b : Bytes)
  deriving DecidableEq, Repr

/-- The platform primitives `crypto.js` calls.  `junk i` is the byte found at index `i`
of memory handed out by `Buffer.allocUnsafe`, which is not initialised. -/
structure Provider where
  /-- The digest `createHmac('sha256', key).update(data).digest()`. -/
  hmac : Bytes → Bytes → Bytes
  /-- The digest `createHash('sha512').update(data).digest()`. -/
  sha512 : Bytes → Bytes
  /-- The output of `createCipheriv('aes-256-cbc', key, iv)`, `update(data)` followed by
  `final()`, or the provider's failure. -/
  aesCbcEncrypt : (key data iv : Bytes) → Except Error Bytes
  /-- The output of `createDecipheriv('aes-256-cbc', key, iv)`, `update(data)` followed by
  `final()`, or the provider's failure. -/
  aesCbcDecrypt : (key data iv : Bytes) → Except Error Bytes
  junk : Nat → Byte

/-- HMAC-SHA256 produces 32-byte tags. -/
def Hmac32 (P : Provider) : Prop := ∀ key data, (P.hmac key data).length = 32

/-! ## Outcomes: result and provider log -/

/-- The result of running an operation: what it returned or threw, and the provider
calls it made, oldest first. -/
structure Outcome (α : Type) where
  result : Except Error α
  trace : List Event

namespace Outcome

/-- Return normally, having called nothing. -/
def ret {α : Type} (a : α) : Outcome α := ⟨.ok a, []⟩

/-- A `throw`. -/
def raise {α : Type} (e : Error) : Outcome α := ⟨.error e, []⟩

/-- Sequencing: a throw ends the run, keeping the log so far. -/
def andThen {α β : Type} (x : Outcome α) (f : α → Outcome β) : Outcome β :=
  match x.result with
  | .error e => ⟨.error e, x.trace⟩
  | .ok a => ⟨(f a).result, x.trace ++ (f a).trace⟩

/-- A provider call: logged, then its result (or failure) is the outcome. -/
def call {α : Type} (ev : Event) (r : Except Error α) : Outcome α := ⟨r, [ev]⟩

/-- The outcome `o`, preceded by the provider call `ev`. -/
def logged {α : Type} (ev : Event) (o : Outcome α) : Outcome α := ⟨o.result, ev :: o.trace⟩

end Outcome

instance : Monad Outcome where
  pure := Outcome.ret
  bind := Outcome.andThen

/-! ## Platform semantics of `Buffer` and of the operators used -/

/-- Is the value a `Buffer` (`Buffer.isBuffer`)? -/
def Value.isBuffer : Value → Bool
  | .buffer _ => true
  | _ => false

/-- The bytes of a `Buffer`; read only after `assertBuffer` has accepted the value. -/
def Value.bytes : Value → Bytes
  | .buffer bs => bs
  | _ => []

/-- The engine's `TypeError` for reading the property `name` of `undefined`. -/
def engineTypeError : Error :=
  .typeError "Cannot read properties of undefined (reading 'name')"

/-- The expression `value == null ? String(value) : value.constructor.name` (crypto.js,
line 11), by kind of value: `String(null)` is `"null"`, `String(undefined)` is
`"undefined"`; of every other value the constructor is read for its name, and when the
value has none, `value.constructor` is `undefined` and reading its `name` throws the
engine's `TypeError`. -/
def Value.typeName : Value → Except Error String
  | .null => .ok "null"
  | .undefined => .ok "undefined"
  | .number _ => .ok "Number"
  | .object c => .ok c
  | .buffer _ => .ok "Buffer"
  | .bare => .error engineTypeError

/-- Node's `adjustOffset` (lib/buffer.js): an integer offset into a buffer of `length`
elements, negative offsets counting from the end, clamped to `0 .. length`. -/
def adjustOffset (offset : Int) (length : Nat) : Nat :=
  if offset = 0 then 0
  else if offset < 0 then
    (if offset + length > 0 then (offset + length).toNat else 0)
  else if offset < length then offset.toNat
  else length

/-- The method `buf.slice(start, end)`, `stop = none` when `end` is omitted. -/
def Buffer.slice (buf : Bytes) (start : Int) (stop : Option Int) : Bytes :=
  let srcLength := buf.length
  let start := adjustOffset start srcLength
  let stop := match stop with
    | some e => adjustOffset e srcLength
    | none => srcLength
  let newLength := if stop > start then stop - start else 0
  (buf.drop start).take newLength

/-- The call `Buffer.allocUnsafe(size)`: `size` bytes of whatever the memory held. -/
def Buffer.allocUnsafe (P : Provider) (size : Nat) : Bytes :=
  (List.range size).map P.junk

/-- The method `buf.fill(value, start, end)`, for offsets `0 ≤ start`, `0 ≤ end`. -/
def Buffer.fill (buf : Bytes) (value : Byte) (start stop : Nat) : Bytes :=
  let stop := min stop buf.length
  if start < stop then buf.take start ++ List.replicate (stop - start) value ++ buf.drop stop
  else buf

/-- The method `source.copy(target, targetStart)`: the bytes of `source` that fit are
written into `target` from `targetStart` on; the result is the new `target`. -/
def Buffer.copy (source target : Bytes) (targetStart : Nat) : Bytes :=
  let n := min source.length (target.length - targetStart)
  target.take targetStart ++ source.take n ++ target.drop (targetStart + n)

/-- The assignment `buf[index] = value`; an index out of range writes nothing. -/
def Buffer.setIndex (buf : Bytes) (index : Nat) (value : Byte) : Bytes :=
  buf.set index value

/-- The method `target.set(source)` of a typed array: `source` is written from offset 0,
a `RangeError` when it does not fit. -/
def Buffer.set (target source : Bytes) : Outcome Bytes :=
  if source.length > target.length then
    Outcome.raise (.rangeError "offset is out of bounds")
  else
    Outcome.ret (source ++ target.drop source.length)

/-- The expression `chunks || 3`: the right operand when the left one is falsy, which
for an optional integer means omitted (`undefined`) or `0`. -/
def orDefault (chunks : Option Int) (dflt : Int) : Int :=
  match chunks with
  | none => dflt
  | some c => if c = 0 then dflt else c

/-- The call `assert(cond)`. -/
def assert (cond : Bool) : Outcome Unit :=
  if cond then Outcome.ret () else Outcome.raise .assertionError

/-- The element `array[index]` of a JavaScript array of buffers; out of range it is
`undefined`, which no buffer method accepts (`TypeError`). -/
def arrayAt (array : List Bytes) (index : Nat) : Outcome Bytes :=
  match array[index]? with
  | some b => Outcome.ret b
  | none => Outcome.raise (.typeError "undefined is not a typed array")

/-- The call `crypto.timingSafeEqual(a, b)`: a `RangeError` unless both have the same
length, otherwise whether they hold the same bytes. -/
def timingSafeEqual (a b : Bytes) : Outcome Bool :=
  if a.length ≠ b.length then
    Outcome.call (.timingSafeEqual a b)
      (.error (.rangeError "Input buffers must have the same byte length"))
  else
    Outcome.call (.timingSafeEqual a b) (.ok (decide (a = b)))

/-! ## The module `crypto.js` -/

/-- Source: `assertBuffer` (crypto.js, lines 9-15). -/
def assertBuffer (value : Value) : Outcome Value :=
  if !value.isBuffer then
    match value.typeName with
    | .error e => Outcome.raise e
    | .ok name => Outcome.raise (.typeError ("Expected Buffer instead of: " ++ name))
  else
    Outcome.ret value

/-- Source: `encrypt` (crypto.js, lines 18-24). -/
def encrypt (P : Provider) (key data iv : Value) : Outcome Bytes := do
  let _ ← assertBuffer key
  let _ ← assertBuffer data
  let _ ← assertBuffer iv
  Outcome.call (.cipher key.bytes data.bytes iv.bytes)
    (P.aesCbcEncrypt key.bytes data.bytes iv.bytes)

/-- Source: `decrypt` (crypto.js, lines 27-33). -/
def decrypt (P : Provider) (key data iv : Value) : Outcome Bytes := do
  let _ ← assertBuffer key
  let _ ← assertBuffer data
  let _ ← assertBuffer iv
  Outcome.call (.decipher key.bytes data.bytes iv.bytes)
    (P.aesCbcDecrypt key.bytes data.bytes iv.bytes)

/-- Source: `calculateMAC` (crypto.js, lines 36-42). -/
def calculateMAC (P : Provider) (key data : Value) : Outcome Bytes := do
  let _ ← assertBuffer key
  let _ ← assertBuffer data
  Outcome.call (.hmac key.bytes data.bytes) (.ok (P.hmac key.bytes data.bytes))

/-- Source: `hash` (crypto.js, lines 45-50). -/
def hash (P : Provider) (data : Value) : Outcome Bytes := do
  let _ ← assertBuffer data
  Outcome.call (.sha512 data.bytes) (.ok (P.sha512 data.bytes))

/-- Source: `deriveSecrets` (crypto.js, lines 54-82).  `chunks = none` is a call with the
fourth argument omitted. -/
def deriveSecrets (P : Provider) (input salt info : Value) (chunks : Option Int) :
    Outcome (List Bytes) := do
  let _ ← assertBuffer input
  let _ ← assertBuffer salt
  let _ ← assertBuffer info
  if salt.bytes.length ≠ 32 then
    Outcome.raise (.error "Got salt of incorrect length")
  else
  let chunks := orDefault chunks 3
  assert (decide (chunks ≥ 1) && decide (chunks ≤ 3))
  let PRK ← calculateMAC P salt input
  let infoOffset := 32
  let mut infoArray := Buffer.allocUnsafe P (info.bytes.length + 1 + infoOffset)
  infoArray := Buffer.fill infoArray 0 0 infoOffset
  infoArray := Buffer.copy info.bytes infoArray infoOffset
  infoArray := Buffer.setIndex infoArray (infoArray.length - 1) 1
  let mut signed := [← calculateMAC P (.buffer PRK)
    (.buffer (Buffer.slice infoArray infoOffset none))]
  if chunks > 1 then
    infoArray ← Buffer.set infoArray (← arrayAt signed (signed.length - 1))
    infoArray := Buffer.setIndex infoArray (infoArray.length - 1) 2
    signed := signed ++ [← calculateMAC P (.buffer PRK) (.buffer infoArray)]
  if chunks > 2 then
    infoArray ← Buffer.set infoArray (← arrayAt signed (signed.length - 1))
    infoArray := Buffer.setIndex infoArray (infoArray.length - 1) 3
    signed := signed ++ [← calculateMAC P (.buffer PRK) (.buffer infoArray)]
  return signed

/-- Source: `verifyMAC` (crypto.js, lines 84-95). -/
def verifyMAC (P : Provider) (data key mac : Value) (length : Int) : Outcome Unit := do
  let _ ← assertBuffer data
  let _ ← assertBuffer key
  let _ ← assertBuffer mac
  let calculatedMac := Buffer.slice (← calculateMAC P key data) 0 (some length)
  if (mac.bytes.length : Int) ≠ length ∨ (calculatedMac.length : Int) ≠ length then
    Outcome.raise (.error "Bad MAC length")
  else
  if !(← timingSafeEqual mac.bytes calculatedMac) then
    Outcome.raise (.error "Bad MAC")
  else
    pure ()

/-! ## What the specification compares the module with -/

namespace Rfc5869

/-- RFC 5869, HKDF-Expand: `T(0)` is empty and `T(i) = HMAC(PRK, T(i-1) ++ info ++ [i])`,
the counter `i` being one octet. -/
def T (hmac : Bytes → Bytes → Bytes) (prk info : Bytes) : Nat → Bytes
  | 0 => []
  | i + 1 => hmac prk (T hmac prk info i ++ info ++ [Fin.ofNat (i + 1)])

/-- The first `k` output blocks `T(1), ..., T(k)` of HKDF-Expand. -/
def blocks (hmac : Bytes → Bytes → Bytes) (prk info : Bytes) (k : Nat) : List Bytes :=
  (List.range k).map fun i => T hmac prk info (i + 1)

end Rfc5869

/-- The byte `b` with bit `j` inverted. -/
def flipBit (b : Byte) (j : Nat) : Byte :=
  ⟨(b.val ^^^ 2 ^ j) % 256, Nat.mod_lt _ (by decide)⟩

/-- The byte sequence `mac` with the single bit at position `pos` inverted: bit
`pos % 8` of the byte at index `pos / 8`. -/
def flipBitAt (mac : Bytes) (pos : Nat) : Bytes :=
  match mac[pos / 8]? with
  | some b => mac.set (pos / 8) (flipBit b (pos % 8))
  | none => mac

/-- The first argument, in declaration order, that is not a `Buffer`. -/
def firstNonBuffer (args : List Value) : Option Value :=
  args.find? fun v => !v.isBuffer

/-- The `TypeError` that `assertBuffer` throws for a value `v` that is not a `Buffer`:
the one that names the type of `v`, or the engine's own when `v` has no constructor to
name. -/
def typeErrorFor (v : Value) : Error :=
  match v.typeName with
  | .error e => e
  | .ok name => .typeError ("Expected Buffer instead of: " ++ name)

/-- What the specification asks of the error for a value that is not a `Buffer`: a
`TypeError` whose message is "Expected Buffer instead of: " followed by a type name. -/
def NamesType (e : Error) : Prop :=
  ∃ name : String, e = .typeError ("Expected Buffer instead of: " ++ name)

/-- Modelled from the spec: the AES-256-CBC primitive of the platform's crypto provider
(`createCipheriv`, `createDecipheriv`) is not part of the repository; the spec treats it
as a trusted black box (sections 2 and 4.2) and states its round trip (section 8): under
a 32-byte key and a 16-byte IV, a plaintext whose length is a multiple of the 16-byte
block size is encrypted to some ciphertext, which the provider decrypts, under the same
key and IV, to that plaintext. -/
def AesCbcRoundTrip (P : Provider) : Prop :=
  ∀ key iv data : Bytes, key.length = 32 → iv.length = 16 → data.length % 16 = 0 →
    ∃ ct, P.aesCbcEncrypt key data iv = .ok ct ∧ P.aesCbcDecrypt key ct iv = .ok data

/-! ## A stand-in provider for concrete instances -/

/-- A provider with tags of the right sizes and an invertible stand-in for the cipher;
it is used to instantiate the general theorems at concrete inputs. -/
def sampleProvider : Provider where
  hmac := fun key data =>
    List.replicate 32 (Fin.ofNat ((key.map Fin.val).sum + 3 * (data.map Fin.val).sum + data.length))
  sha512 := fun data => List.replicate 64 (Fin.ofNat data.length)
  aesCbcEncrypt := fun _ data _ => .ok data
  aesCbcDecrypt := fun _ data _ => .ok data
  junk := fun i => Fin.ofNat (7 * i + 5)

/-! ## Sequencing lemmas -/

theorem bind_eq_andThen {α β : Type} (x : Outcome α) (f : α → Outcome β) :
    x >>= f = Outcome.andThen x f := rfl

theorem pure_eq_ret {α : Type} (a : α) : (pure a : Outcome α) = Outcome.ret a := rfl

theorem andThen_ret {α β : Type} (a : α) (f : α → Outcome β) :
    Outcome.andThen (Outcome.ret a) f = f a := by
  simp [Outcome.andThen, Outcome.ret]

theorem andThen_raise {α β : Type} (e : Error) (f : α → Outcome β) :
    Outcome.andThen (Outcome.raise e : Outcome α) f = Outcome.raise e := rfl

theorem andThen_call_ok {α β : Type} (ev : Event) (a : α) (f : α → Outcome β) :
    Outcome.andThen (Outcome.call ev (.ok a)) f = Outcome.logged ev (f a) := rfl

theorem assertBuffer_buffer (bs : Bytes) :
    assertBuffer (.buffer bs) = Outcome.ret (.buffer bs) := rfl

theorem assertBuffer_not_buffer (v : Value) (h : v.isBuffer = false) :
    assertBuffer v = Outcome.raise (typeErrorFor v) := by
  cases v <;> simp [assertBuffer, Value.isBuffer, typeErrorFor, Value.typeName] at h ⊢

theorem calculateMAC_buffer (P : Provider) (key data : Bytes) :
    calculateMAC P (.buffer key) (.buffer data) =
      Outcome.call (.hmac key data) (.ok (P.hmac key data)) := by
  simp only [calculateMAC, bind_eq_andThen, assertBuffer_buffer, andThen_ret, Value.bytes]

/-! ## The scratch block of `deriveSecrets` -/

theorem allocUnsafe_length (P : Provider) (n : Nat) : (Buffer.allocUnsafe P n).length = n := by
  simp [Buffer.allocUnsafe]

theorem setIndex_last (A info : Bytes) (c v : Byte) :
    Buffer.setIndex (A ++ (info ++ [c])) ((A ++ (info ++ [c])).length - 1) v =
      A ++ (info ++ [v]) := by
  unfold Buffer.setIndex
  rw [← List.append_assoc, ← List.append_assoc]
  have hlen : (A ++ info ++ [c]).length - 1 = (A ++ info).length := by simp
  rw [hlen]
  simp [List.set_append]

theorem fill_zero_head (J : Bytes) (hJ : 32 ≤ J.length) :
    Buffer.fill J 0 0 32 = List.replicate 32 0 ++ J.drop 32 := by
  simp [Buffer.fill, Nat.min_eq_left hJ]

theorem copy_at_offset (Z R info : Bytes) (hZ : Z.length = 32)
    (hR : R.length = info.length + 1) :
    Buffer.copy info (Z ++ R) 32 = Z ++ (info ++ R.drop info.length) := by
  have hdrop : List.drop (32 + info.length) (Z ++ R) = List.drop info.length R := by
    rw [← hZ, List.drop_append]
  simp [Buffer.copy, hZ, hR, hdrop]

/-- After `allocUnsafe`, `fill`, `copy` and the write of the counter byte the scratch
block is 32 zero bytes, then `info`, then the counter `1`, whatever the memory held. -/
theorem infoArray_init (P : Provider) (info : Bytes) :
    Buffer.setIndex
        (Buffer.copy info (Buffer.fill (Buffer.allocUnsafe P (info.length + 1 + 32)) 0 0 32) 32)
        ((Buffer.copy info
            (Buffer.fill (Buffer.allocUnsafe P (info.length + 1 + 32)) 0 0 32) 32).length - 1)
        1 =
      List.replicate 32 0 ++ (info ++ [1]) := by
  have hJ := allocUnsafe_length P (info.length + 1 + 32)
  generalize Buffer.allocUnsafe P (info.length + 1 + 32) = J at hJ
  have hR : (J.drop 32).length = info.length + 1 := by simp [hJ]
  rw [fill_zero_head J (by omega),
    copy_at_offset (List.replicate 32 0) (J.drop 32) info (by simp) hR]
  have hlast : ((J.drop 32).drop info.length).length = 1 := by
    simp only [List.length_drop, hJ]
    omega
  obtain ⟨x, hx⟩ := List.length_eq_one.mp hlast
  rw [hx, setIndex_last]

theorem slice_from_offset (A rest : Bytes) (hA : A.length = 32) :
    Buffer.slice (A ++ rest) ((32 : Nat) : Int) none = rest := by
  have hadj : adjustOffset ((32 : Nat) : Int) (A ++ rest).length = 32 := by
    simp only [adjustOffset, List.length_append, hA]
    split_ifs <;> omega
  simp only [Buffer.slice, hadj]
  rw [← hA, List.drop_left]
  apply List.take_of_length_le
  simp only [List.length_append, hA]
  split_ifs <;> omega

theorem set_head (A rest T : Bytes) (h : T.length = A.length) :
    Buffer.set (A ++ rest) T = Outcome.ret (T ++ rest) := by
  simp [Buffer.set, h]

theorem arrayAt_last_one (a : Bytes) : arrayAt [a] ([a].length - 1) = Outcome.ret a := by
  simp [arrayAt]

theorem arrayAt_last_two (a b : Bytes) :
    arrayAt ([a] ++ [b]) (([a] ++ [b]).length - 1) = Outcome.ret b := by
  simp [arrayAt]

theorem logged_ret {α : Type} (ev : Event) (a : α) :
    Outcome.logged ev (Outcome.ret a) = ⟨.ok a, [ev]⟩ := by
  simp only [Outcome.logged, Outcome.ret]

theorem logged_raise {α : Type} (ev : Event) (e : Error) :
    Outcome.logged ev (Outcome.raise e : Outcome α) = ⟨.error e, [ev]⟩ := by
  simp only [Outcome.logged, Outcome.raise]

theorem logged_mk {α : Type} (ev : Event) (r : Except Error α) (t : List Event) :
    Outcome.logged ev ⟨r, t⟩ = ⟨r, ev :: t⟩ := by
  simp only [Outcome.logged]

/-- The run of `deriveSecrets` on three buffers, the salt of 32 bytes, by the value of
`chunks || 3`: the chunks, the provider calls, or the failed assertion. -/
theorem deriveSecrets_run (P : Provider) (input salt info : Bytes) (chunks : Option Int)
    (h : salt.length = 32) (h32 : Hmac32 P) :
    deriveSecrets P (.buffer input) (.buffer salt) (.buffer info) chunks =
      (let prk := P.hmac salt input
       let t1 := P.hmac prk (info ++ [1])
       let t2 := P.hmac prk (t1 ++ (info ++ [2]))
       let t3 := P.hmac prk (t2 ++ (info ++ [3]))
       if orDefault chunks 3 = 1 then
         ⟨.ok [t1], [.hmac salt input, .hmac prk (info ++ [1])]⟩
       else if orDefault chunks 3 = 2 then
         ⟨.ok [t1, t2],
          [.hmac salt input, .hmac prk (info ++ [1]), .hmac prk (t1 ++ (info ++ [2]))]⟩
       else if orDefault chunks 3 = 3 then
         ⟨.ok [t1, t2, t3],
          [.hmac salt input, .hmac prk (info ++ [1]), .hmac prk (t1 ++ (info ++ [2])),
           .hmac prk (t2 ++ (info ++ [3]))]⟩
       else ⟨.error .assertionError, []⟩) := by
  have hz : (List.replicate 32 (0 : Byte)).length = 32 := List.length_replicate _ _
  simp only [deriveSecrets, bind_eq_andThen, assertBuffer_buffer, andThen_ret, Value.bytes, h,
    pure_eq_ret, calculateMAC_buffer, andThen_call_ok, infoArray_init,
    slice_from_offset _ _ hz, arrayAt_last_one, arrayAt_last_two,
    set_head _ _ _ ((h32 _ _).trans hz.symm), set_head _ _ _ ((h32 _ _).trans (h32 _ _).symm),
    setIndex_last]
  generalize orDefault chunks 3 = c
  by_cases h1 : c = 1
  · subst h1
    simp [assert, andThen_ret, logged_ret, logged_mk]
  by_cases h2 : c = 2
  · subst h2
    simp [assert, andThen_ret, logged_ret, logged_mk]
  by_cases h3 : c = 3
  · subst h3
    simp [assert, andThen_ret, logged_ret, logged_mk]
  have hbad : (decide (c ≥ 1) && decide (c ≤ 3)) = false := by
    simp only [ge_iff_le, Bool.and_eq_false_imp, decide_eq_true_eq, decide_eq_false_iff_not]
    omega
  simp only [assert, hbad, andThen_raise, h1, h2, h3, if_false, Bool.false_eq_true]
  simp only [ne_eq, not_true_eq_false, if_false, Outcome.raise]

theorem sampleProvider_hmac32 : Hmac32 sampleProvider := by
  intro key data
  simp [sampleProvider]

theorem sampleProvider_roundTrip : AesCbcRoundTrip sampleProvider := by
  intro key iv data _ _ _
  exact ⟨data, rfl, rfl⟩

/-! ## `verifyMAC` on buffers -/

/-- The run of `verifyMAC` on three buffers. -/
theorem verifyMAC_run (P : Provider) (data key mac : Bytes) (length : Int) :
    verifyMAC P (.buffer data) (.buffer key) (.buffer mac) length =
      (let calculatedMac := Buffer.slice (P.hmac key data) 0 (some length)
       if (mac.length : Int) ≠ length ∨ (calculatedMac.length : Int) ≠ length then
         ⟨.error (.error "Bad MAC length"), [.hmac key data]⟩
       else if mac = calculatedMac then
         ⟨.ok (), [.hmac key data, .timingSafeEqual mac calculatedMac]⟩
       else
         ⟨.error (.error "Bad MAC"), [.hmac key data, .timingSafeEqual mac calculatedMac]⟩) := by
  simp only [verifyMAC, bind_eq_andThen, assertBuffer_buffer, andThen_ret, Value.bytes,
    pure_eq_ret, calculateMAC_buffer, andThen_call_ok]
  generalize Buffer.slice (P.hmac key data) 0 (some length) = cm
  by_cases hlen : (mac.length : Int) ≠ length ∨ (cm.length : Int) ≠ length
  · simp only [if_pos hlen, logged_raise]
  · have hl : ¬ mac.length ≠ cm.length := by omega
    simp only [if_neg hlen, timingSafeEqual, if_neg hl, andThen_call_ok]
    by_cases heq : mac = cm
    · simp [heq, logged_ret, logged_mk, Outcome.ret]
    · simp [heq, logged_raise, logged_mk]

/-- The truncation `slice(0, length)` of a 32-byte tag, for `0 ≤ length ≤ 32`. -/
theorem slice_tag_length (tag : Bytes) (length : Int) (htag : tag.length = 32)
    (h0 : 0 ≤ length) (h1 : length ≤ 32) :
    ((Buffer.slice tag 0 (some length)).length : Int) = length := by
  have hadj : adjustOffset length 32 = length.toNat := by
    simp only [adjustOffset]
    split_ifs <;> omega
  have h00 : adjustOffset 0 32 = 0 := by simp [adjustOffset]
  simp only [Buffer.slice, htag, hadj, h00, List.drop_zero, List.length_take]
  split_ifs <;> omega

theorem flipBit_ne (b : Byte) (j : Nat) (hj : j < 8) : flipBit b j ≠ b := by
  intro h
  have hv : (b.val ^^^ 2 ^ j) % 256 = b.val := congrArg Fin.val h
  have hpow : 2 ^ j < 2 ^ 8 := Nat.pow_lt_pow_right (by decide) hj
  have hlt : b.val ^^^ 2 ^ j < 256 := Nat.xor_lt_two_pow (n := 8) b.isLt hpow
  rw [Nat.mod_eq_of_lt hlt] at hv
  have hz : 2 ^ j = 0 := Nat.xor_right_inj.mp (hv.trans (Nat.xor_zero b.val).symm)
  exact absurd hz (by positivity)

theorem flipBitAt_length (mac : Bytes) (pos : Nat) : (flipBitAt mac pos).length = mac.length := by
  unfold flipBitAt
  split <;> simp

theorem flipBitAt_ne (mac : Bytes) (pos : Nat) (hpos : pos / 8 < mac.length) :
    flipBitAt mac pos ≠ mac := by
  intro h
  have hget : mac[pos / 8]? = some (mac[pos / 8]) := List.getElem?_eq_getElem hpos
  have hflip : flipBitAt mac pos = mac.set (pos / 8) (flipBit mac[pos / 8] (pos % 8)) := by
    simp only [flipBitAt, hget]
  have h1 : (flipBitAt mac pos)[pos / 8]? = some (flipBit mac[pos / 8] (pos % 8)) := by
    rw [hflip, List.getElem?_set_self hpos]
  rw [h, hget] at h1
  exact flipBit_ne _ _ (Nat.mod_lt _ (by decide)) (Option.some.inj h1).symm

/-- For a length that is not negative, `slice(0, length)` keeps the first `length`
bytes. -/
theorem slice_zero_eq_take (tag : Bytes) (length : Int) (h0 : 0 ≤ length) :
    Buffer.slice tag 0 (some length) = tag.take length.toNat := by
  have h00 : adjustOffset 0 tag.length = 0 := by simp [adjustOffset]
  simp only [Buffer.slice, h00, List.drop_zero]
  by_cases hlt : length < tag.length
  · have hadj : adjustOffset length tag.length = length.toNat := by
      simp only [adjustOffset]
      split_ifs <;> omega
    rw [hadj]
    split_ifs with hpos
    · rfl
    · have hz : length.toNat = 0 := by omega
      simp [hz]
  · have hadj : adjustOffset length tag.length = tag.length := by
      simp only [adjustOffset]
      split_ifs <;> omega
    rw [hadj]
    have hge : tag.length ≤ length.toNat := by omega
    rw [List.take_of_length_le hge]
    split_ifs with hpos
    · exact List.take_of_length_le (by omega)
    · have hz : tag.length = 0 := by omega
      simp [List.length_eq_zero.mp hz]

theorem slice_length_le (tag : Bytes) (start : Int) (stop : Option Int) :
    (Buffer.slice tag start stop).length ≤ tag.length := by
  simp only [Buffer.slice, List.length_take, List.length_drop]
  omega

/-! ## The guard at the head of every operation -/

theorem assertBuffer_cases (v : Value) :
    (v.isBuffer = true ∧ assertBuffer v = Outcome.ret v) ∨
      (v.isBuffer = false ∧ assertBuffer v = Outcome.raise (typeErrorFor v)) := by
  cases v <;> simp [assertBuffer, Value.isBuffer, typeErrorFor, Value.typeName]

/-- One guard: a value that is not a buffer stops the run. -/
theorem guard_one {α : Type} (a v : Value) (rest : Outcome α)
    (h : firstNonBuffer [a] = some v) :
    (Outcome.andThen (assertBuffer a) fun _ => rest) = ⟨.error (typeErrorFor v), []⟩ := by
  rcases assertBuffer_cases a with ⟨ha, _⟩ | ⟨ha, hr⟩
  · simp [firstNonBuffer, ha] at h
  · have hv : a = v := by simpa [firstNonBuffer, ha] using h
    rw [hr, andThen_raise, ← hv, Outcome.raise]

/-- Two guards in a row: the first value that is not a buffer stops the run. -/
theorem guard_two {α : Type} (a b v : Value) (rest : Outcome α)
    (h : firstNonBuffer [a, b] = some v) :
    (Outcome.andThen (assertBuffer a) fun _ =>
      Outcome.andThen (assertBuffer b) fun _ => rest) = ⟨.error (typeErrorFor v), []⟩ := by
  rcases assertBuffer_cases a with ⟨ha, hr⟩ | ⟨ha, hr⟩
  · rw [hr, andThen_ret]
    exact guard_one b v rest (by simpa [firstNonBuffer, ha] using h)
  · have hv : a = v := by simpa [firstNonBuffer, ha] using h
    rw [hr, andThen_raise, ← hv, Outcome.raise]

/-- Three guards in a row: the first value that is not a buffer stops the run. -/
theorem guard_three {α : Type} (a b c v : Value) (rest : Outcome α)
    (h : firstNonBuffer [a, b, c] = some v) :
    (Outcome.andThen (assertBuffer a) fun _ =>
      Outcome.andThen (assertBuffer b) fun _ =>
        Outcome.andThen (assertBuffer c) fun _ => rest) = ⟨.error (typeErrorFor v), []⟩ := by
  rcases assertBuffer_cases a with ⟨ha, hr⟩ | ⟨ha, hr⟩
  · rw [hr, andThen_ret]
    exact guard_two b c v rest (by simpa [firstNonBuffer, ha] using h)
  · have hv : a = v := by simpa [firstNonBuffer, ha] using h
    rw [hr, andThen_raise, ← hv, Outcome.raise]

/-- Whatever the value, the guard's error is a `TypeError`. -/
theorem typeErrorFor_is_typeError (v : Value) :
    ∃ message, typeErrorFor v = .typeError message := by
  cases v <;> simp [typeErrorFor, Value.typeName, engineTypeError]

/-- The engine's message for a missing constructor is not the module's diagnostic. -/
theorem engine_error_names_no_type : ¬ NamesType engineTypeError := by
  rintro ⟨name, h⟩
  have hdata := congrArg String.data (Error.typeError.inj h)
  simp [String.data_append] at hdata

/-- When no argument is offending, all three are buffers. -/
theorem all_buffers_of_firstNonBuffer_none (a b c : Value)
    (h : firstNonBuffer [a, b, c] = none) :
    ∃ x y z, a = .buffer x ∧ b = .buffer y ∧ c = .buffer z := by
  cases a <;> cases b <;> cases c <;> simp [firstNonBuffer, Value.isBuffer] at h ⊢

/-- On three buffers a salt that is not 32 bytes long stops `deriveSecrets` before
`chunks` is looked at and before any provider call. -/
theorem deriveSecrets_bad_salt (P : Provider) (input salt info : Bytes) (chunks : Option Int)
    (hsalt : salt.length ≠ 32) :
    deriveSecrets P (.buffer input) (.buffer salt) (.buffer info) chunks =
      ⟨.error (.error "Got salt of incorrect length"), []⟩ := by
  simp only [deriveSecrets, bind_eq_andThen, assertBuffer_buffer, andThen_ret, Value.bytes,
    if_pos hsalt, Outcome.raise]

/-- On three buffers with a 32-byte salt, a value of `chunks || 3` outside `1 .. 3` fails
the assertion before any provider call. -/
theorem deriveSecrets_bad_chunks (P : Provider) (input salt info : Bytes)
    (chunks : Option Int) (hsalt : salt.length = 32)
    (hc : ¬ (1 ≤ orDefault chunks 3 ∧ orDefault chunks 3 ≤ 3)) :
    deriveSecrets P (.buffer input) (.buffer salt) (.buffer info) chunks =
      ⟨.error .assertionError, []⟩ := by
  have hbad : (decide (orDefault chunks 3 ≥ 1) && decide (orDefault chunks 3 ≤ 3)) = false := by
    simp only [ge_iff_le, Bool.and_eq_false_imp, decide_eq_true_eq, decide_eq_false_iff_not]
    omega
  simp only [deriveSecrets, bind_eq_andThen, assertBuffer_buffer, andThen_ret, Value.bytes,
    hsalt, hbad, assert, andThen_raise, ne_eq, not_true_eq_false, if_false,
    Bool.false_eq_true]
  rfl

/-! ## The claims -/

/-- C1: with HMAC-SHA256 a fixed function of 32-byte output, a 32-byte salt and `k` in
`{1, 2, 3}`, `deriveSecrets(input, salt, info, k)` returns exactly `[T1, ..., Tk]`, where
`PRK = HMAC(salt, input)`, `T1 = HMAC(PRK, info ++ [1])`, `T2 = HMAC(PRK, T1 ++ info ++ [2])`
and `T3 = HMAC(PRK, T2 ++ info ++ [3])`: the first `k` blocks of RFC 5869 HKDF-Expand
applied to the extract output `HMAC(salt, input)`. -/
theorem C1_deriveSecrets_hkdf_expand (P : Provider) (input salt info : Bytes) (k : Int)
    (hsalt : salt.length = 32) (h32 : Hmac32 P) (hk : k = 1 ∨ k = 2 ∨ k = 3) :
    let PRK := P.hmac salt input
    let T1 := P.hmac PRK (info ++ [0x01])
    let T2 := P.hmac PRK (T1 ++ info ++ [0x02])
    let T3 := P.hmac PRK (T2 ++ info ++ [0x03])
    (deriveSecrets P (.buffer input) (.buffer salt) (.buffer info) (some k)).result =
        .ok ([T1, T2, T3].take k.toNat) ∧
      [T1, T2, T3].take k.toNat = Rfc5869.blocks P.hmac PRK info k.toNat := by
  intro PRK T1 T2 T3
  have c1 : (Fin.ofNat 1 : Byte) = 1 := rfl
  have c2 : (Fin.ofNat 2 : Byte) = 2 := rfl
  have c3 : (Fin.ofNat 3 : Byte) = 3 := rfl
  rw [deriveSecrets_run P input salt info (some k) hsalt h32]
  rcases hk with rfl | rfl | rfl
  · constructor
    · simp [orDefault, T1, PRK]
    · simp [Rfc5869.blocks, Rfc5869.T, List.range_succ, c1, c2, c3, T1, PRK]
  · constructor
    · simp [orDefault, T1, T2, PRK]
    · simp [Rfc5869.blocks, Rfc5869.T, List.range_succ, c1, c2, c3, T1, T2, PRK]
  · constructor
    · simp [orDefault, T1, T2, T3, PRK]
    · simp [Rfc5869.blocks, Rfc5869.T, List.range_succ, c1, c2, c3, T1, T2, T3, PRK]

/-- C1 at a concrete input: one zero byte of input, a salt of 32 zero bytes, empty
`info`, three chunks. -/
theorem C1_witness :
    (deriveSecrets sampleProvider (.buffer [0]) (.buffer (List.replicate 32 0)) (.buffer [])
        (some 3)).result =
      .ok (Rfc5869.blocks sampleProvider.hmac
        (sampleProvider.hmac (List.replicate 32 0) [0]) [] 3) := by
  have h := C1_deriveSecrets_hkdf_expand sampleProvider [0] (List.replicate 32 0) [] 3
    (by simp) sampleProvider_hmac32 (by decide)
  exact h.1.trans (congrArg Except.ok h.2)

/-- C2, as amended: for every `data`, every `key` and every integer `length` with
`0 ≤ length ≤ 32`, if `mac` is `HMAC-SHA256(key, data).slice(0, length)` then
`verifyMAC(data, key, mac, length)` completes without raising an error (HMAC-SHA256
having 32-byte output). -/
theorem C2_verifyMAC_accepts_truncated_tag (P : Provider) (data key : Bytes) (length : Int)
    (h32 : Hmac32 P) (h0 : 0 ≤ length) (h1 : length ≤ 32) :
    (verifyMAC P (.buffer data) (.buffer key)
        (.buffer (Buffer.slice (P.hmac key data) 0 (some length))) length).result = .ok () := by
  have hlen := slice_tag_length (P.hmac key data) length (h32 key data) h0 h1
  rw [verifyMAC_run]
  simp [hlen]

/-- C2 as amended, at a concrete input: the 20-byte truncation of the tag of `[1, 2, 3]`
under the key `[7]` is accepted. -/
theorem C2_witness :
    (verifyMAC sampleProvider (.buffer [1, 2, 3]) (.buffer [7])
        (.buffer (Buffer.slice (sampleProvider.hmac [7] [1, 2, 3]) 0 (some 20))) 20).result =
      .ok () :=
  C2_verifyMAC_accepts_truncated_tag sampleProvider [1, 2, 3] [7] 20 sampleProvider_hmac32
    (by decide) (by decide)

/-- C2 as stated fails: with `length = 33` the truncation `HMAC(key, data)[:33]` is the
whole 32-byte tag, and with `length = -1` it is the first 31 bytes; in both cases
`mac.length !== length`, so for no HMAC of 32-byte output does `verifyMAC` do anything
but throw "Bad MAC length" (here on empty `data` and empty `key`). -/
theorem C2_counterexample :
    (¬ ∃ P : Provider, Hmac32 P ∧
        (verifyMAC P (.buffer []) (.buffer [])
          (.buffer (Buffer.slice (P.hmac [] []) 0 (some 33))) 33).result ≠
            .error (.error "Bad MAC length")) ∧
      (¬ ∃ P : Provider, Hmac32 P ∧
        (verifyMAC P (.buffer []) (.buffer [])
          (.buffer (Buffer.slice (P.hmac [] []) 0 (some (-1)))) (-1)).result ≠
            .error (.error "Bad MAC length")) := by
  constructor
  · rintro ⟨P, h32, h⟩
    apply h
    rw [verifyMAC_run]
    have hle : ((Buffer.slice (P.hmac [] []) 0 (some 33)).length : Int) ≤ 32 := by
      have := h32 [] []
      simp only [Buffer.slice, List.length_take, List.length_drop]
      omega
    have hne : ((Buffer.slice (P.hmac [] []) 0 (some 33)).length : Int) ≠ 33 := by omega
    simp [hne]
  · rintro ⟨P, h32, h⟩
    apply h
    rw [verifyMAC_run]
    have hne : ((Buffer.slice (P.hmac [] []) 0 (some (-1))).length : Int) ≠ -1 := by omega
    simp [hne]

/-- C3: for every `data`, every `key`, every `length` with `1 ≤ length ≤ 32` and every bit
position below `8 * length`, if `mac` is `HMAC-SHA256(key, data)` truncated to `length`
bytes with that single bit flipped, then `verifyMAC(data, key, mac, length)` fails with
the authentication error "Bad MAC": not with the length error, not with success.  The
comparison is reached (HMAC-SHA256 having 32-byte output). -/
theorem C3_verifyMAC_rejects_bit_flip (P : Provider) (data key : Bytes) (length : Int)
    (pos : Nat) (h32 : Hmac32 P) (h1 : 1 ≤ length) (h2 : length ≤ 32)
    (hpos : (pos : Int) < 8 * length) :
    verifyMAC P (.buffer data) (.buffer key)
        (.buffer (flipBitAt (Buffer.slice (P.hmac key data) 0 (some length)) pos)) length =
      ⟨.error (.error "Bad MAC"),
       [.hmac key data,
        .timingSafeEqual (flipBitAt (Buffer.slice (P.hmac key data) 0 (some length)) pos)
          (Buffer.slice (P.hmac key data) 0 (some length))]⟩ := by
  have hlen := slice_tag_length (P.hmac key data) length (h32 key data) (by omega) h2
  have hidx : pos / 8 < (Buffer.slice (P.hmac key data) 0 (some length)).length := by omega
  have hne := flipBitAt_ne _ pos hidx
  rw [verifyMAC_run]
  simp [flipBitAt_length, hlen, hne]

/-- C3 at a concrete input: bit 77 of the 16-byte truncation flipped. -/
theorem C3_witness :
    (verifyMAC sampleProvider (.buffer [1, 2, 3]) (.buffer [7])
        (.buffer (flipBitAt (Buffer.slice (sampleProvider.hmac [7] [1, 2, 3]) 0 (some 16)) 77))
        16).result = .error (.error "Bad MAC") :=
  congrArg Outcome.result
    (C3_verifyMAC_rejects_bit_flip sampleProvider [1, 2, 3] [7] 16 77 sampleProvider_hmac32
      (by decide) (by decide) (by decide))

/-- C4: for every `data`, `key`, `mac` and every integer `length`, if `mac.length` differs
from `length`, or the calculated HMAC truncated by `slice(0, length)` does not have length
exactly `length`, then `verifyMAC(data, key, mac, length)` fails with the length error
"Bad MAC length" whatever the contents of `mac`, and the comparison of the MAC bytes is
never reached: the HMAC is the only provider call. -/
theorem C4_verifyMAC_length_error (P : Provider) (data key mac : Bytes) (length : Int)
    (h : (mac.length : Int) ≠ length ∨
      ((Buffer.slice (P.hmac key data) 0 (some length)).length : Int) ≠ length) :
    verifyMAC P (.buffer data) (.buffer key) (.buffer mac) length =
        ⟨.error (.error "Bad MAC length"), [.hmac key data]⟩ ∧
      ∀ a b, Event.timingSafeEqual a b ∉
        (verifyMAC P (.buffer data) (.buffer key) (.buffer mac) length).trace := by
  have hrun : verifyMAC P (.buffer data) (.buffer key) (.buffer mac) length =
      ⟨.error (.error "Bad MAC length"), [.hmac key data]⟩ := by
    rw [verifyMAC_run]
    simp only [if_pos h]
  refine ⟨hrun, ?_⟩
  intro a b
  rw [hrun]
  simp

/-- C4 at a concrete input: a 3-byte `mac` with `length = 40`. -/
theorem C4_witness :
    verifyMAC sampleProvider (.buffer [1, 2, 3]) (.buffer [7]) (.buffer [9, 9, 9]) 40 =
      ⟨.error (.error "Bad MAC length"), [.hmac [7] [1, 2, 3]]⟩ :=
  (C4_verifyMAC_length_error sampleProvider [1, 2, 3] [7] [9, 9, 9] 40
    (Or.inl (by decide))).1

/-- C5: for every `input`, `salt` and `info` with `salt.length != 32` and every value of
`chunks`, given or omitted, `deriveSecrets(input, salt, info, chunks)` fails with the
length error "Got salt of incorrect length" and returns no chunks; no provider call is
made. -/
theorem C5_deriveSecrets_salt_length (P : Provider) (input salt info : Bytes)
    (chunks : Option Int) (hsalt : salt.length ≠ 32) :
    deriveSecrets P (.buffer input) (.buffer salt) (.buffer info) chunks =
      ⟨.error (.error "Got salt of incorrect length"), []⟩ := by
  simp only [deriveSecrets, bind_eq_andThen, assertBuffer_buffer, andThen_ret, Value.bytes,
    if_pos hsalt, Outcome.raise]

/-- C5 at concrete inputs: salts of 16 and of 31 bytes. -/
theorem C5_witness :
    deriveSecrets sampleProvider (.buffer [0]) (.buffer (List.replicate 16 0)) (.buffer [])
        (some 3) = ⟨.error (.error "Got salt of incorrect length"), []⟩ ∧
      deriveSecrets sampleProvider (.buffer [0]) (.buffer (List.replicate 31 0)) (.buffer [])
        none = ⟨.error (.error "Got salt of incorrect length"), []⟩ :=
  ⟨C5_deriveSecrets_salt_length sampleProvider [0] (List.replicate 16 0) [] (some 3)
      (by decide),
    C5_deriveSecrets_salt_length sampleProvider [0] (List.replicate 31 0) [] none
      (by decide)⟩

/-- For every `input` and `info`, every 32-byte salt and every integer `chunks` below 0 or
above 3, `deriveSecrets(input, salt, info, chunks)` fails with an assertion error and
returns no chunks; no provider call is made. -/
theorem deriveSecrets_rejects_chunks_beyond_range (P : Provider) (input salt info : Bytes)
    (chunks : Int) (hsalt : salt.length = 32) (hc : chunks < 0 ∨ 3 < chunks) :
    deriveSecrets P (.buffer input) (.buffer salt) (.buffer info) (some chunks) =
      ⟨.error .assertionError, []⟩ := by
  have hne : chunks ≠ 0 := by omega
  have hbad : (decide (chunks ≥ 1) && decide (chunks ≤ 3)) = false := by
    simp only [ge_iff_le, Bool.and_eq_false_imp, decide_eq_true_eq, decide_eq_false_iff_not]
    omega
  simp only [deriveSecrets, bind_eq_andThen, assertBuffer_buffer, andThen_ret, Value.bytes,
    hsalt, orDefault, if_neg hne, hbad, assert, andThen_raise, ne_eq, not_true_eq_false,
    if_false, Bool.false_eq_true]
  rfl

/-- C6: the code at `chunks = 0`, where the claim asks for an assertion error.  The
default `chunks || 3` replaces the `0` by `3` before `assert(chunks >= 1 && chunks <= 3)`
is reached, so the assertion tests `3`; for no HMAC of 32-byte output does the call (one
zero byte of input, a salt of 32 zero bytes, empty `info`) do anything but return three
chunks. -/
theorem C6_chunks_zero_passes_assertion :
    orDefault (some 0) 3 = 3 ∧
      ¬ ∃ P : Provider, Hmac32 P ∧
        ¬ ∃ t1 t2 t3,
          (deriveSecrets P (.buffer [0]) (.buffer (List.replicate 32 0)) (.buffer [])
            (some 0)).result = .ok [t1, t2, t3] := by
  refine ⟨rfl, ?_⟩
  rintro ⟨P, h32, h⟩
  apply h
  rw [deriveSecrets_run P [0] (List.replicate 32 0) [] (some 0) (by simp) h32]
  simp [orDefault]

/-- C7: for every `input` and `info`, every 32-byte salt and every `k` in `{1, 2, 3}`,
`deriveSecrets(input, salt, info, k)` is the length-`k` prefix of
`deriveSecrets(input, salt, info, 3)`; in particular the sole element of the `chunks = 1`
result is the first element of the `chunks = 3` result (HMAC-SHA256 having 32-byte
output). -/
theorem C7_deriveSecrets_initial_segment (P : Provider) (input salt info : Bytes) (k : Int)
    (hsalt : salt.length = 32) (h32 : Hmac32 P) (hk : k = 1 ∨ k = 2 ∨ k = 3) :
    ∃ t1 t2 t3,
      (deriveSecrets P (.buffer input) (.buffer salt) (.buffer info) (some 3)).result =
          .ok [t1, t2, t3] ∧
        (deriveSecrets P (.buffer input) (.buffer salt) (.buffer info) (some k)).result =
          .ok ([t1, t2, t3].take k.toNat) ∧
        (deriveSecrets P (.buffer input) (.buffer salt) (.buffer info) (some 1)).result =
          .ok [t1] := by
  refine ⟨P.hmac (P.hmac salt input) (info ++ [1]),
    P.hmac (P.hmac salt input) (P.hmac (P.hmac salt input) (info ++ [1]) ++ (info ++ [2])),
    P.hmac (P.hmac salt input)
      (P.hmac (P.hmac salt input) (P.hmac (P.hmac salt input) (info ++ [1]) ++ (info ++ [2])) ++
        (info ++ [3])), ?_, ?_, ?_⟩
  · rw [deriveSecrets_run P input salt info (some 3) hsalt h32]
    simp [orDefault]
  · rw [deriveSecrets_run P input salt info (some k) hsalt h32]
    rcases hk with rfl | rfl | rfl <;> simp [orDefault]
  · rw [deriveSecrets_run P input salt info (some 1) hsalt h32]
    simp [orDefault]

/-- C7 at a concrete input: the two-chunk result is a prefix of the three-chunk one. -/
theorem C7_witness :
    ∃ t1 t2 t3,
      (deriveSecrets sampleProvider (.buffer [0]) (.buffer (List.replicate 32 0))
          (.buffer [5]) (some 3)).result = .ok [t1, t2, t3] ∧
        (deriveSecrets sampleProvider (.buffer [0]) (.buffer (List.replicate 32 0))
          (.buffer [5]) (some 2)).result = .ok [t1, t2] ∧
        (deriveSecrets sampleProvider (.buffer [0]) (.buffer (List.replicate 32 0))
          (.buffer [5]) (some 1)).result = .ok [t1] :=
  C7_deriveSecrets_initial_segment sampleProvider [0] (List.replicate 32 0) [5] 2 (by simp)
    sampleProvider_hmac32 (by decide)

/-- C8: with HMAC-SHA256 returning 32 bytes, for every `input` and `info`, every 32-byte
salt and every `chunks` in `{1, 2, 3}`, `deriveSecrets(input, salt, info, chunks)` returns
a sequence of exactly `chunks` elements, each of exactly 32 bytes. -/
theorem C8_deriveSecrets_output_shape (P : Provider) (input salt info : Bytes) (chunks : Int)
    (hsalt : salt.length = 32) (h32 : Hmac32 P)
    (hc : chunks = 1 ∨ chunks = 2 ∨ chunks = 3) :
    ∃ out : List Bytes,
      (deriveSecrets P (.buffer input) (.buffer salt) (.buffer info) (some chunks)).result =
          .ok out ∧
        (out.length : Int) = chunks ∧ ∀ c ∈ out, c.length = 32 := by
  rw [deriveSecrets_run P input salt info (some chunks) hsalt h32]
  rcases hc with rfl | rfl | rfl
  · exact ⟨_, by simp only [orDefault]; rfl, by simp, by simp [h32 _ _]⟩
  · exact ⟨_, by simp only [orDefault]; rfl, by simp, by simp [h32 _ _]⟩
  · exact ⟨_, by simp only [orDefault]; rfl, by simp, by simp [h32 _ _]⟩

/-- C8 at a concrete input: two chunks of 32 bytes. -/
theorem C8_witness :
    ∃ out : List Bytes,
      (deriveSecrets sampleProvider (.buffer [0]) (.buffer (List.replicate 32 0))
          (.buffer [5]) (some 2)).result = .ok out ∧
        (out.length : Int) = 2 ∧ ∀ c ∈ out, c.length = 32 :=
  C8_deriveSecrets_output_shape sampleProvider [0] (List.replicate 32 0) [5] 2 (by simp)
    sampleProvider_hmac32 (by decide)

/-- C9: for every `input` and `info` and every 32-byte salt, `deriveSecrets(input, salt,
info)` with the `chunks` argument omitted returns the same three-chunk sequence (and makes
the same provider calls) as `deriveSecrets(input, salt, info, 3)`. -/
theorem C9_deriveSecrets_default_chunks (P : Provider) (input salt info : Bytes)
    (hsalt : salt.length = 32) (h32 : Hmac32 P) :
    deriveSecrets P (.buffer input) (.buffer salt) (.buffer info) none =
        deriveSecrets P (.buffer input) (.buffer salt) (.buffer info) (some 3) ∧
      ∃ t1 t2 t3,
        (deriveSecrets P (.buffer input) (.buffer salt) (.buffer info) none).result =
          .ok [t1, t2, t3] := by
  rw [deriveSecrets_run P input salt info none hsalt h32,
    deriveSecrets_run P input salt info (some 3) hsalt h32]
  constructor
  · simp [orDefault]
  · simp [orDefault]

/-- C9 at a concrete input. -/
theorem C9_witness :
    deriveSecrets sampleProvider (.buffer [0]) (.buffer (List.replicate 32 0)) (.buffer [5])
        none =
      deriveSecrets sampleProvider (.buffer [0]) (.buffer (List.replicate 32 0)) (.buffer [5])
        (some 3) :=
  (C9_deriveSecrets_default_chunks sampleProvider [0] (List.replicate 32 0) [5] (by simp)
    sampleProvider_hmac32).1

/-- Each of `encrypt`, `decrypt`, `hash`, `calculateMAC`, `deriveSecrets` and `verifyMAC`,
on an argument list in which at least one byte-sequence parameter is not a `Buffer`,
fails with the guard's `TypeError` for the first offending parameter in declaration
order, before any provider call and before any other check. -/
theorem operations_type_error_first (P : Provider) :
    (∀ key data iv v, firstNonBuffer [key, data, iv] = some v →
        encrypt P key data iv = ⟨.error (typeErrorFor v), []⟩) ∧
      (∀ key data iv v, firstNonBuffer [key, data, iv] = some v →
        decrypt P key data iv = ⟨.error (typeErrorFor v), []⟩) ∧
      (∀ data v, firstNonBuffer [data] = some v →
        hash P data = ⟨.error (typeErrorFor v), []⟩) ∧
      (∀ key data v, firstNonBuffer [key, data] = some v →
        calculateMAC P key data = ⟨.error (typeErrorFor v), []⟩) ∧
      (∀ input salt info chunks v, firstNonBuffer [input, salt, info] = some v →
        deriveSecrets P input salt info chunks = ⟨.error (typeErrorFor v), []⟩) ∧
      (∀ data key mac length v, firstNonBuffer [data, key, mac] = some v →
        verifyMAC P data key mac length = ⟨.error (typeErrorFor v), []⟩) := by
  refine ⟨?_, ?_, ?_, ?_, ?_, ?_⟩
  · intro key data iv v h
    exact guard_three key data iv v _ h
  · intro key data iv v h
    exact guard_three key data iv v _ h
  · intro data v h
    exact guard_one data v _ h
  · intro key data v h
    exact guard_two key data v _ h
  · intro input salt info chunks v h
    exact guard_three input salt info v _ h
  · intro data key mac length v h
    exact guard_three data key mac v _ h

/-- For an offending value that is `null`, `undefined` or has a constructor, the guard's
error names its type. -/
theorem typeErrorFor_names_type (v : Value) (hv : v ≠ .bare) : NamesType (typeErrorFor v) := by
  cases v <;> first
    | exact absurd rfl hv
    | exact ⟨_, rfl⟩

/-- C10: the code at an argument that has no constructor (`Object.create(null)`), where
the claim asks for an error naming the type of the first offending parameter.  Each of
the six operations fails with a `TypeError` before any provider call, but it is the
engine's "Cannot read properties of undefined (reading 'name')", thrown by
`value.constructor.name` while `assertBuffer` builds its message, and it names no type. -/
theorem C10_no_constructor_argument (P : Provider) :
    encrypt P .bare (.buffer []) (.buffer []) = ⟨.error engineTypeError, []⟩ ∧
      decrypt P (.buffer []) .bare (.buffer []) = ⟨.error engineTypeError, []⟩ ∧
      hash P .bare = ⟨.error engineTypeError, []⟩ ∧
      calculateMAC P (.buffer []) .bare = ⟨.error engineTypeError, []⟩ ∧
      deriveSecrets P (.buffer []) (.buffer (List.replicate 32 0)) .bare none =
        ⟨.error engineTypeError, []⟩ ∧
      verifyMAC P (.buffer []) (.buffer []) .bare 0 = ⟨.error engineTypeError, []⟩ ∧
      ¬ NamesType engineTypeError :=
  ⟨(operations_type_error_first P).1 .bare (.buffer []) (.buffer []) .bare rfl,
    (operations_type_error_first P).2.1 (.buffer []) .bare (.buffer []) .bare rfl,
    (operations_type_error_first P).2.2.1 .bare .bare rfl,
    (operations_type_error_first P).2.2.2.1 (.buffer []) .bare .bare rfl,
    (operations_type_error_first P).2.2.2.2.1 (.buffer []) (.buffer (List.replicate 32 0))
      .bare none .bare rfl,
    (operations_type_error_first P).2.2.2.2.2 (.buffer []) (.buffer []) .bare 0 .bare rfl,
    engine_error_names_no_type⟩

/-- On a `Buffer`, `assertBuffer` returns the value itself; on `null`, `undefined` and on
every other value that has a constructor it fails with a `TypeError` whose message is
"Expected Buffer instead of: " followed by "null", "undefined" or the name of the
constructor. -/
theorem assertBuffer_on_named_values :
    (∀ v : Value, v.isBuffer = true → assertBuffer v = ⟨.ok v, []⟩) ∧
      (∀ v : Value, v.isBuffer = false → v ≠ .bare →
        ∃ name, assertBuffer v =
          ⟨.error (.typeError ("Expected Buffer instead of: " ++ name)), []⟩) ∧
      assertBuffer .null = ⟨.error (.typeError "Expected Buffer instead of: null"), []⟩ ∧
      assertBuffer .undefined =
        ⟨.error (.typeError "Expected Buffer instead of: undefined"), []⟩ ∧
      (∀ n : Int, assertBuffer (.number n) =
        ⟨.error (.typeError "Expected Buffer instead of: Number"), []⟩) ∧
      (∀ c : String, assertBuffer (.object c) =
        ⟨.error (.typeError ("Expected Buffer instead of: " ++ c)), []⟩) ∧
      assertBuffer (.object "Uint8Array") =
        ⟨.error (.typeError "Expected Buffer instead of: Uint8Array"), []⟩ ∧
      assertBuffer (.object "Array") =
        ⟨.error (.typeError "Expected Buffer instead of: Array"), []⟩ := by
  refine ⟨?_, ?_, rfl, rfl, fun _ => rfl, fun _ => rfl, rfl, rfl⟩
  · intro v hv
    cases v <;> simp [Value.isBuffer] at hv
    rfl
  · intro v hv hbare
    obtain ⟨name, hname⟩ := typeErrorFor_names_type v hbare
    exact ⟨name, by rw [assertBuffer_not_buffer v hv, hname]; rfl⟩

/-- C11: the code at a value that has no constructor (`Object.create(null)`), where the
claim asks for the `TypeError` "Expected Buffer instead of: " followed by a name.  The
value is not a `Buffer` and `value == null` is false, so `value.constructor.name` is
evaluated; `value.constructor` is `undefined`, and `assertBuffer` fails with the engine's
"Cannot read properties of undefined (reading 'name')" before its own message is built. -/
theorem C11_assertBuffer_no_constructor :
    Value.isBuffer .bare = false ∧
      assertBuffer .bare = ⟨.error engineTypeError, []⟩ ∧
      ¬ NamesType engineTypeError :=
  ⟨rfl, rfl, engine_error_names_no_type⟩

/-- C12: `deriveSecrets` is deterministic.  Two calls with identical `input`, `info`,
32-byte `salt` and `chunks` (in particular `chunks = 3`) yield identical outcomes, whatever
the uninitialised memory of the scratch block held at either call: under the same
HMAC-SHA256 (of 32-byte output) the result depends on `input`, `salt`, `info` and `chunks`
only, and with `chunks = 3` it is a sequence of three chunks. -/
theorem C12_deriveSecrets_deterministic (P Q : Provider) (input salt info : Bytes)
    (chunks : Option Int) (hsame : Q.hmac = P.hmac) (hsalt : salt.length = 32)
    (h32 : Hmac32 P) :
    deriveSecrets P (.buffer input) (.buffer salt) (.buffer info) chunks =
        deriveSecrets Q (.buffer input) (.buffer salt) (.buffer info) chunks ∧
      ∃ t1 t2 t3,
        (deriveSecrets P (.buffer input) (.buffer salt) (.buffer info) (some 3)).result =
            .ok [t1, t2, t3] ∧
          (deriveSecrets Q (.buffer input) (.buffer salt) (.buffer info) (some 3)).result =
            .ok [t1, t2, t3] := by
  have hQ : Hmac32 Q := by
    intro key data
    rw [hsame]
    exact h32 key data
  rw [deriveSecrets_run P input salt info chunks hsalt h32,
    deriveSecrets_run Q input salt info chunks hsalt hQ,
    deriveSecrets_run P input salt info (some 3) hsalt h32,
    deriveSecrets_run Q input salt info (some 3) hsalt hQ, hsame]
  exact ⟨rfl, by simp [orDefault]⟩

/-- C12 at a concrete input: the same call under two states of the uninitialised
memory. -/
theorem C12_witness :
    deriveSecrets sampleProvider (.buffer [0]) (.buffer (List.replicate 32 0)) (.buffer [5])
        (some 3) =
      deriveSecrets { sampleProvider with junk := fun _ => 255 } (.buffer [0])
        (.buffer (List.replicate 32 0)) (.buffer [5]) (some 3) :=
  (C12_deriveSecrets_deterministic sampleProvider { sampleProvider with junk := fun _ => 255 }
    [0] (List.replicate 32 0) [5] (some 3) rfl (by simp) sampleProvider_hmac32).1

/-- C13: for every 32-byte key, every 16-byte IV and every plaintext whose length is a
multiple of the 16-byte block size, `decrypt(key, encrypt(key, P, iv), iv)` equals `P`:
`encrypt` hands key, plaintext and IV to the provider's cipher and returns its ciphertext,
`decrypt` hands key, that ciphertext and IV to the provider's decipher, whose round trip
is the contract `AesCbcRoundTrip`. -/
theorem C13_decrypt_encrypt (P : Provider) (key iv data : Bytes) (hP : AesCbcRoundTrip P)
    (hkey : key.length = 32) (hiv : iv.length = 16) (hdata : data.length % 16 = 0) :
    ∃ ct,
      encrypt P (.buffer key) (.buffer data) (.buffer iv) =
          ⟨.ok ct, [.cipher key data iv]⟩ ∧
        decrypt P (.buffer key) (.buffer ct) (.buffer iv) =
          ⟨.ok data, [.decipher key ct iv]⟩ := by
  obtain ⟨ct, henc, hdec⟩ := hP key iv data hkey hiv hdata
  refine ⟨ct, ?_, ?_⟩
  · simp only [encrypt, bind_eq_andThen, assertBuffer_buffer, andThen_ret, Value.bytes, henc,
      Outcome.call]
  · simp only [decrypt, bind_eq_andThen, assertBuffer_buffer, andThen_ret, Value.bytes, hdec,
      Outcome.call]

/-- C13 at a concrete input: a 32-byte key, a 16-byte IV and one block of plaintext. -/
theorem C13_witness :
    ∃ ct,
      encrypt sampleProvider (.buffer (List.replicate 32 1)) (.buffer (List.replicate 16 2))
          (.buffer (List.replicate 16 3)) =
          ⟨.ok ct, [.cipher (List.replicate 32 1) (List.replicate 16 2) (List.replicate 16 3)]⟩ ∧
        decrypt sampleProvider (.buffer (List.replicate 32 1)) (.buffer ct)
          (.buffer (List.replicate 16 3)) =
          ⟨.ok (List.replicate 16 2),
           [.decipher (List.replicate 32 1) ct (List.replicate 16 3)]⟩ :=
  C13_decrypt_encrypt sampleProvider (List.replicate 32 1) (List.replicate 16 3)
    (List.replicate 16 2) sampleProvider_roundTrip (by simp) (by simp) (by simp)

/-- C14: the exact success condition of `verifyMAC`, HMAC-SHA256 returning 32 bytes.  For
every `data`, `key`, `mac` and every integer `length`, `verifyMAC(data, key, mac, length)`
completes without error if and only if `0 ≤ length ≤ 32`, `mac.length = length` and `mac`
equals the first `length` bytes of `HMAC-SHA256(key, data)`.  In every other case it
raises: the length error when a length mismatches (`length` outside `0 .. 32`, or
`mac.length != length`), otherwise the authentication error.  With `length = 0` and an
empty `mac` it succeeds for every `data` and `key`. -/
theorem C14_verifyMAC_success_condition (P : Provider) (data key mac : Bytes) (length : Int)
    (h32 : Hmac32 P) :
    ((verifyMAC P (.buffer data) (.buffer key) (.buffer mac) length).result = .ok () ↔
        0 ≤ length ∧ length ≤ 32 ∧ (mac.length : Int) = length ∧
          mac = (P.hmac key data).take length.toNat) ∧
      (¬ (0 ≤ length ∧ length ≤ 32) ∨ (mac.length : Int) ≠ length →
        (verifyMAC P (.buffer data) (.buffer key) (.buffer mac) length).result =
          .error (.error "Bad MAC length")) ∧
      (0 ≤ length ∧ length ≤ 32 ∧ (mac.length : Int) = length ∧
          mac ≠ (P.hmac key data).take length.toNat →
        (verifyMAC P (.buffer data) (.buffer key) (.buffer mac) length).result =
          .error (.error "Bad MAC")) ∧
      (verifyMAC P (.buffer data) (.buffer key) (.buffer []) 0).result = .ok () := by
  have hle := slice_length_le (P.hmac key data) 0 (some length)
  have htag := h32 key data
  have hbad : ¬ (0 ≤ length ∧ length ≤ 32) ∨ (mac.length : Int) ≠ length →
      (verifyMAC P (.buffer data) (.buffer key) (.buffer mac) length).result =
        .error (.error "Bad MAC length") := by
    intro h
    have hcond : (mac.length : Int) ≠ length ∨
        ((Buffer.slice (P.hmac key data) 0 (some length)).length : Int) ≠ length := by
      rcases h with h | h
      · exact Or.inr (by omega)
      · exact Or.inl h
    rw [verifyMAC_run]
    simp only [if_pos hcond]
  have hin : ∀ m : Bytes, 0 ≤ length → length ≤ 32 → (m.length : Int) = length →
      (verifyMAC P (.buffer data) (.buffer key) (.buffer m) length).result =
        if m = (P.hmac key data).take length.toNat then .ok ()
        else .error (.error "Bad MAC") := by
    intro m h0 h1 hm
    have hlen := slice_tag_length (P.hmac key data) length htag h0 h1
    have htake := slice_zero_eq_take (P.hmac key data) length h0
    rw [htake] at hlen
    have hcond : ¬ ((m.length : Int) ≠ length ∨
        (((P.hmac key data).take length.toNat).length : Int) ≠ length) := by
      omega
    rw [verifyMAC_run, htake]
    simp only [if_neg hcond]
    split_ifs <;> rfl
  refine ⟨⟨fun hres => ?_, fun h => ?_⟩, hbad, fun h => ?_, ?_⟩
  · by_cases hr : ¬ (0 ≤ length ∧ length ≤ 32) ∨ (mac.length : Int) ≠ length
    · rw [hbad hr] at hres
      cases hres
    · have h0 : 0 ≤ length := by omega
      have h1 : length ≤ 32 := by omega
      have hm : (mac.length : Int) = length := by omega
      refine ⟨h0, h1, hm, ?_⟩
      by_contra he
      rw [hin mac h0 h1 hm, if_neg he] at hres
      cases hres
  · rw [hin mac h.1 h.2.1 h.2.2.1, if_pos h.2.2.2]
  · rw [hin mac h.1 h.2.1 h.2.2.1, if_neg h.2.2.2]
  · rw [verifyMAC_run, slice_zero_eq_take _ 0 (le_refl 0)]
    simp

/-- C14 at a concrete input: the empty `mac` with `length = 0` is accepted. -/
theorem C14_witness :
    (verifyMAC sampleProvider (.buffer [1, 2, 3]) (.buffer [7]) (.buffer []) 0).result =
      .ok () :=
  (C14_verifyMAC_success_condition sampleProvider [1, 2, 3] [7] [] 0
    sampleProvider_hmac32).2.2.2

/-- C15: for every `input` and `info` and every 32-byte salt,
`deriveSecrets(input, salt, info, 0)` does not fail: `chunks || 3` replaces the `0` by `3`
before the range assertion, and the call has the outcome of
`deriveSecrets(input, salt, info, 3)`, three chunks (HMAC-SHA256 having 32-byte
output). -/
theorem C15_deriveSecrets_zero_chunks (P : Provider) (input salt info : Bytes)
    (hsalt : salt.length = 32) (h32 : Hmac32 P) :
    orDefault (some 0) 3 = 3 ∧
      deriveSecrets P (.buffer input) (.buffer salt) (.buffer info) (some 0) =
        deriveSecrets P (.buffer input) (.buffer salt) (.buffer info) (some 3) ∧
      ∃ t1 t2 t3,
        (deriveSecrets P (.buffer input) (.buffer salt) (.buffer info) (some 0)).result =
          .ok [t1, t2, t3] := by
  rw [deriveSecrets_run P input salt info (some 0) hsalt h32,
    deriveSecrets_run P input salt info (some 3) hsalt h32]
  refine ⟨rfl, ?_, ?_⟩
  · simp [orDefault]
  · simp [orDefault]

/-- C15 at a concrete input. -/
theorem C15_witness :
    deriveSecrets sampleProvider (.buffer [0]) (.buffer (List.replicate 32 0)) (.buffer [5])
        (some 0) =
      deriveSecrets sampleProvider (.buffer [0]) (.buffer (List.replicate 32 0)) (.buffer [5])
        (some 3) :=
  (C15_deriveSecrets_zero_chunks sampleProvider [0] (List.replicate 32 0) [5] (by simp)
    sampleProvider_hmac32).2.1

/-- C16: error precedence in `deriveSecrets`, for all arguments.  A non-Buffer `input`,
`salt` or `info` yields the `TypeError`, whatever the salt length and `chunks` are;
otherwise a salt of length other than 32 yields the length error, whatever `chunks` is;
otherwise a value of `chunks || 3` outside `1 .. 3` yields the assertion error, which is
raised only when all three arguments are Buffers and the salt is exactly 32 bytes; and
(HMAC-SHA256 having 32-byte output) no HMAC is computed in any failing case. -/
theorem C16_deriveSecrets_error_precedence (P : Provider) (input salt info : Value)
    (chunks : Option Int) :
    (∀ v, firstNonBuffer [input, salt, info] = some v →
        deriveSecrets P input salt info chunks = ⟨.error (typeErrorFor v), []⟩) ∧
      (firstNonBuffer [input, salt, info] = none → salt.bytes.length ≠ 32 →
        deriveSecrets P input salt info chunks =
          ⟨.error (.error "Got salt of incorrect length"), []⟩) ∧
      (firstNonBuffer [input, salt, info] = none → salt.bytes.length = 32 →
        ¬ (1 ≤ orDefault chunks 3 ∧ orDefault chunks 3 ≤ 3) →
        deriveSecrets P input salt info chunks = ⟨.error .assertionError, []⟩) ∧
      ((deriveSecrets P input salt info chunks).result = .error .assertionError →
        firstNonBuffer [input, salt, info] = none ∧ salt.bytes.length = 32) ∧
      (Hmac32 P → ∀ e, (deriveSecrets P input salt info chunks).result = .error e →
        (deriveSecrets P input salt info chunks).trace = []) := by
  have htype : ∀ v, firstNonBuffer [input, salt, info] = some v →
      deriveSecrets P input salt info chunks = ⟨.error (typeErrorFor v), []⟩ :=
    fun v h => guard_three input salt info v _ h
  refine ⟨htype, ?_, ?_, ?_, ?_⟩
  · intro hnone hsalt
    obtain ⟨x, y, z, rfl, rfl, rfl⟩ := all_buffers_of_firstNonBuffer_none _ _ _ hnone
    exact deriveSecrets_bad_salt P x y z chunks hsalt
  · intro hnone hsalt hc
    obtain ⟨x, y, z, rfl, rfl, rfl⟩ := all_buffers_of_firstNonBuffer_none _ _ _ hnone
    exact deriveSecrets_bad_chunks P x y z chunks hsalt hc
  · intro hres
    cases hfirst : firstNonBuffer [input, salt, info] with
    | some v =>
      rw [htype v hfirst] at hres
      obtain ⟨message, hmessage⟩ := typeErrorFor_is_typeError v
      rw [hmessage] at hres
      simp at hres
    | none =>
      refine ⟨rfl, ?_⟩
      by_contra hsalt
      obtain ⟨x, y, z, rfl, rfl, rfl⟩ := all_buffers_of_firstNonBuffer_none _ _ _ hfirst
      rw [deriveSecrets_bad_salt P x y z chunks hsalt] at hres
      simp at hres
  · intro h32 e hres
    cases hfirst : firstNonBuffer [input, salt, info] with
    | some v => rw [htype v hfirst]
    | none =>
      obtain ⟨x, y, z, rfl, rfl, rfl⟩ := all_buffers_of_firstNonBuffer_none _ _ _ hfirst
      by_cases hsalt : y.length = 32
      · rw [deriveSecrets_run P x y z chunks hsalt h32] at hres ⊢
        simp only at hres ⊢
        split_ifs at hres ⊢
        rfl
      · rw [deriveSecrets_bad_salt P x y z chunks hsalt]

/-- C16 at concrete inputs: `null` as `input` with a 16-byte salt and `chunks = 4` gives
the `TypeError`; a 16-byte salt with `chunks = 4` gives the length error; a 32-byte salt
with `chunks = 4` gives the assertion error; no provider call in any of them. -/
theorem C16_witness :
    deriveSecrets sampleProvider .null (.buffer (List.replicate 16 0)) (.buffer []) (some 4) =
        ⟨.error (.typeError "Expected Buffer instead of: null"), []⟩ ∧
      deriveSecrets sampleProvider (.buffer [0]) (.buffer (List.replicate 16 0)) (.buffer [])
        (some 4) = ⟨.error (.error "Got salt of incorrect length"), []⟩ ∧
      deriveSecrets sampleProvider (.buffer [0]) (.buffer (List.replicate 32 0)) (.buffer [])
        (some 4) = ⟨.error .assertionError, []⟩ :=
  ⟨(C16_deriveSecrets_error_precedence sampleProvider .null (.buffer (List.replicate 16 0))
      (.buffer []) (some 4)).1 .null rfl,
    (C16_deriveSecrets_error_precedence sampleProvider (.buffer [0])
      (.buffer (List.replicate 16 0)) (.buffer []) (some 4)).2.1 rfl (by decide),
    (C16_deriveSecrets_error_precedence sampleProvider (.buffer [0])
      (.buffer (List.replicate 32 0)) (.buffer []) (some 4)).2.2.1 rfl (by simp [Value.bytes])
      (by decide)⟩

end Crypto
